import Mathlib

/-!
Shallow embedding of the DevinationBot message-builder core
(grammY/TypeScript Telegram bot): button-grid editor, message-link parser,
overflow indirection for oversized callback payloads, and the session
state-machine handlers, together with proofs of the specification's
testable properties.

Conventions of the embedding:
* JS arrays become Lean lists; `Array.prototype.splice` clamps its start
  index to the array length, which the `spliceInsert` / `spliceRemove`
  helpers reproduce with `List.take` / `List.drop`.
* JS numbers are modelled as exact integers (`Nat` / `Int`); the message
  and chat ids handled by the bot are far below 2^53, where IEEE doubles
  are exact.
* Mutation of the per-user session is modelled by explicit state passing:
  each handler maps the incoming session value to the outgoing one plus a
  render instruction.
-/

/-- Button action kind: `"url"` opens a link, `"alert"` shows a popup
(src/types/index.ts, `MessageButton.action`). -/
inductive BtnAction
  | url
  | alert
deriving DecidableEq

/-- A single inline button of the builder grid (src/types/index.ts,
`MessageButton`). -/
structure MessageButton where
  text : String
  action : BtnAction
  value : String
deriving DecidableEq

/-- The ordered rows of ordered button cells (`MessageButton[][]`). -/
abbrev ButtonGrid := List (List MessageButton)

/-- JS `arr.splice(i, 0, a)`: insert `a` at index `i`, shifting later
elements right; a start index past the end is clamped to the end. -/
def spliceInsert (l : List α) (i : Nat) (a : α) : List α :=
  l.take i ++ a :: l.drop i

/-- JS `arr.splice(i, 1)`: remove the element at index `i`, shifting later
elements left; removes nothing when `i` is past the end. -/
def spliceRemove (l : List α) (i : Nat) : List α :=
  l.take i ++ l.drop (i + 1)

/-- Length of row `r` of the grid; `0` when the row does not exist. -/
def rowLen (g : ButtonGrid) (r : Nat) : Nat :=
  ((g.get? r).getD []).length

/-- The grid insertion performed on `btn_value` completion with
`editing.isNew` (src/callbacks/messageInput.ts):
`if (!buttons[row]) buttons[row] = []; buttons[row].splice(col, 0, btn)`.
For `row = buttons.length` the assignment appends a fresh row.  (For
`row > buttons.length` the JS assignment would create a sparse array with
holes, which a list cannot represent; this embedding appends instead, and
every theorem below stays in the region `row ≤ buttons.length` where the
embedding is exact.) -/
def insertCell (g : ButtonGrid) (r c : Nat) (b : MessageButton) : ButtonGrid :=
  if r < g.length then
    g.set r (spliceInsert ((g.get? r).getD []) c b)
  else
    g ++ [spliceInsert [] c b]

/-- In-place overwrite performed on `btn_value` completion with
`editing.isNew = false`: `if (buttons[row]) buttons[row][col] = btn`.
(A column index past the row's end would extend the JS row with holes;
`List.set` leaves the row unchanged there — again unexercised below.) -/
def replaceCell (g : ButtonGrid) (r c : Nat) (b : MessageButton) : ButtonGrid :=
  if r < g.length then
    g.set r ((((g.get? r).getD [])).set c b)
  else
    g

/-- The deletion performed by the `btn_del:R:C` / `ab_btn_del:R:C`
handlers (src/callbacks/messageBuilder.ts, src/callbacks/attachButtons.ts):
`row.splice(col, 1); if (row.length === 0) buttons.splice(row, 1)`. -/
def deleteCell (g : ButtonGrid) (r c : Nat) : ButtonGrid :=
  if r < g.length then
    if (spliceRemove ((g.get? r).getD []) c).isEmpty then
      spliceRemove g r
    else
      g.set r (spliceRemove ((g.get? r).getD []) c)
  else
    g

-- ── Link Resolver: src/utils/messageLink.ts ──

/-- Whitespace removed by JS `String.prototype.trim` (the ASCII classes
plus NBSP and the BOM; the remaining exotic Unicode space separators are
not enumerated and never exercised below). -/
def jsWhitespace (c : Char) : Bool :=
  c = ' ' || c = '\t' || c = '\n' || c = '\r' || c = '\x0b' || c = '\x0c' ||
    c = ' ' || c = '﻿'

/-- JS `url.trim()`. -/
def trimJs (s : List Char) : List Char :=
  ((s.dropWhile jsWhitespace).reverse.dropWhile jsWhitespace).reverse

/-- Regex character class `[a-zA-Z0-9_]` of the public-link username. -/
def isWordChar (c : Char) : Bool :=
  c.isAlpha || c.isDigit || c = '_'

/-- Regex character class `[a-zA-Z_]` (first character of a username). -/
def isUserStart (c : Char) : Bool :=
  c.isAlpha || c = '_'

/-- Matches a literal character sequence at the head of the input and
returns the rest, or fails. -/
def eatLit : List Char → List Char → Option (List Char)
  | [], s => some s
  | _ :: _, [] => none
  | l :: lit, c :: s => if c = l then eatLit lit s else none

/-- The literal `https://` of the optional scheme group `(?:https?:\/\/)?`. -/
def httpsChars : List Char := ['h', 't', 't', 'p', 's', ':', '/', '/']

/-- The literal `http://` (the scheme group without the optional `s`). -/
def httpChars : List Char := ['h', 't', 't', 'p', ':', '/', '/']

/-- The literal `t\.me\/` of both link patterns. -/
def tMeChars : List Char := ['t', '.', 'm', 'e', '/']

/-- The literal `t\.me\/c\/` of the private-link pattern. -/
def tMeCChars : List Char := ['t', '.', 'm', 'e', '/', 'c', '/']

/-- The part of pattern 1 after the optional scheme:
`t\.me\/([a-zA-Z_][a-zA-Z0-9_]{4,})\/(\d+)`.  The greedy quantifiers are
deterministic here: neither `/` nor a digit boundary can be re-matched by
backtracking a word-character or digit run, so maximal runs are faithful
to the regex engine. Returns (username capture, message-id capture). -/
def publicBody (t : List Char) : Option (List Char × List Char) :=
  match eatLit tMeChars t with
  | none => none
  | some t1 =>
    match t1 with
    | [] => none
    | c :: t2 =>
      if isUserStart c then
        if 4 ≤ (t2.takeWhile isWordChar).length then
          match t2.dropWhile isWordChar with
          | '/' :: r =>
            if (r.takeWhile Char.isDigit).isEmpty then none
            else some (c :: t2.takeWhile isWordChar, r.takeWhile Char.isDigit)
          | _ => none
        else none
      else none

/-- The part of pattern 2 after the optional scheme:
`t\.me\/c\/(\d+)\/(\d+)`. Returns (chat fragment, message-id capture). -/
def privateBody (t : List Char) : Option (List Char × List Char) :=
  match eatLit tMeCChars t with
  | none => none
  | some t1 =>
    if (t1.takeWhile Char.isDigit).isEmpty then none
    else
      match t1.dropWhile Char.isDigit with
      | '/' :: r =>
        if (r.takeWhile Char.isDigit).isEmpty then none
        else some (t1.takeWhile Char.isDigit, r.takeWhile Char.isDigit)
      | _ => none

/-- Pattern 1 attempted at one start position.  The regex tries the
optional scheme group greedily (`https://`, then `http://`, then without
the group), falling through on failure of either the literal or the rest
of the pattern — reproduced by ordered alternation. -/
def matchPublicAt (s : List Char) : Option (List Char × List Char) :=
  ((eatLit httpsChars s).bind publicBody) <|>
    (((eatLit httpChars s).bind publicBody) <|> publicBody s)

/-- Pattern 2 attempted at one start position. -/
def matchPrivateAt (s : List Char) : Option (List Char × List Char) :=
  ((eatLit httpsChars s).bind privateBody) <|>
    (((eatLit httpChars s).bind privateBody) <|> privateBody s)

/-- JS `String.prototype.match` with an unanchored pattern: the engine
tries every start position left to right and returns the first match. -/
def scanFirst (f : List Char → Option α) : List Char → Option α
  | [] => f []
  | c :: t => f (c :: t) <|> scanFirst f t

/-- Numeric value of a decimal digit character. -/
def digitVal (c : Char) : Nat := c.toNat - '0'.toNat

/-- Value of a decimal digit string. -/
def digitsToNat (l : List Char) : Nat :=
  l.foldl (fun n c => 10 * n + digitVal c) 0

/-- JS `parseInt(s, 10)` restricted to the inputs the parser feeds it: an
optional leading minus sign followed by digits (regex captures are
non-empty digit strings, so the NaN case is unreachable). -/
def parseIntDec (s : List Char) : Int :=
  match s with
  | '-' :: t => -(digitsToNat (t.takeWhile Char.isDigit) : Int)
  | t => (digitsToNat (t.takeWhile Char.isDigit) : Int)

/-- `ParsedMessageLink.chatId`: `number | string` in the source. -/
inductive ChatRef
  | handle (s : List Char)
  | num (n : Int)
deriving DecidableEq

/-- Parsed result from a Telegram message link
(src/utils/messageLink.ts, `ParsedMessageLink`). -/
structure ParsedMessageLink where
  chatId : ChatRef
  messageId : Int
deriving DecidableEq

/-- src/utils/messageLink.ts `parseMessageLink`: trim, try the public
pattern, then the private pattern (whose chat id is
`parseInt("-100" + rawId, 10)` — a literal string concatenation), else
null. -/
def parseMessageLink (url : List Char) : Option ParsedMessageLink :=
  match scanFirst matchPublicAt (trimJs url) with
  | some (uname, ds) => some ⟨ChatRef.handle ('@' :: uname), parseIntDec ds⟩
  | none =>
    match scanFirst matchPrivateAt (trimJs url) with
    | some (frag, ds) =>
      some ⟨ChatRef.num (parseIntDec ('-' :: '1' :: '0' :: '0' :: frag)),
        parseIntDec ds⟩
    | none => none

-- ── Session data model: src/types/index.ts ──

/-- Compose-flow step (`BuilderStep`; the handlers also use
`image_position`, set by `img_done` and the photo-input handler). -/
inductive BuilderStep
  | idle
  | write_text
  | add_image
  | send_image
  | image_position
  | edit_buttons
  | btn_text
  | btn_action
  | btn_value
  | review
  | select_group
  | confirm_send
deriving DecidableEq

/-- The transient edit cursor `editingButton` — position of the button
being created or edited, and whether it is a fresh insertion. -/
structure EditingButton where
  row : Nat
  col : Nat
  isNew : Bool
deriving DecidableEq

/-- `ComposedMessage`: the message under construction. -/
structure ComposedMessage where
  text : String
  imageFileId : Option String := none
  imagePosition : Option String := none
  buttons : ButtonGrid := []
deriving DecidableEq

/-- `AttachStep` of the attach-buttons flow. -/
inductive AttachStep
  | attach_idle
  | attach_edit_buttons
  | attach_awaiting_url
deriving DecidableEq

/-- `AttachFlowData`: the attach flow's independent state. -/
structure AttachFlowData where
  step : AttachStep
  buttons : ButtonGrid
  editingButton : Option EditingButton := none
  pendingButtonText : Option String := none
  pendingButtonAction : Option BtnAction := none
deriving DecidableEq

/-- `SessionData`: one record per end user; optional TS fields are
`Option` (absent = `none`). -/
structure SessionData where
  step : BuilderStep
  message : ComposedMessage
  editingButton : Option EditingButton := none
  pendingButtonText : Option String := none
  pendingButtonAction : Option BtnAction := none
  targetGroupId : Option Int := none
  lastBotMessageId : Option Nat := none
  lastBotMessageIsPhoto : Option Bool := none
  attachFlow : Option AttachFlowData := none
deriving DecidableEq

/-- `createDefaultSession()`: the returned object literal has exactly the
keys `step` and `message`. -/
def createDefaultSession : SessionData :=
  { step := BuilderStep.idle
    message := { text := "", buttons := [] } }

/-- `Object.assign(session, createDefaultSession())` copies exactly the
own properties of the source literal — `step` and `message` — onto the
session; every other session field keeps its previous value. -/
def assignDefaultSession (s : SessionData) : SessionData :=
  { s with
    step := createDefaultSession.step
    message := createDefaultSession.message }

-- ── Render model ──

/-- Keyboards of src/keyboards/messageBuilder.ts, identified by their
builder function; grid keyboards carry the grid they lay out. -/
inductive Keyboard
  | startKb
  | addImageKb
  | imageAttachedKb
  | imagePositionKb
  | buttonGridKb (g : ButtonGrid)
  | buttonActionKb
  | editButtonKb (r c : Nat)
  | reviewKb
  | confirmSendKb (title : String)
  | attachButtonGridKb (g : ButtonGrid)
  | attachButtonActionKb
  | attachEditButtonKb (r c : Nat)
  | attachAwaitingUrlKb
  | backOnly (cb : String)
deriving DecidableEq

/-- Outbound effect of one handler: a rendered step message, a
non-blocking warning (`answerCallbackQuery` with `show_alert`), or
passing the update to the next handler (`next()`). -/
inductive Render
  | show (text : String) (kb : Keyboard)
  | alertWarn (text : String)
  | passThrough
deriving DecidableEq

/-- `showStep` of the callback handlers: deletes the previous bot message,
sends the new one and records its transport-assigned id (`newMsgId`) and
whether it was a photo. -/
def showStepSend (s : SessionData) (newMsgId : Nat) (isPhoto : Bool) :
    SessionData :=
  { s with
    lastBotMessageId := some newMsgId
    lastBotMessageIsPhoto := some isPhoto }

/-- The local `show` helper of the attach-flow text-input handler
(src/callbacks/messageInput.ts), which records only the new message id. -/
def showAttachSend (s : SessionData) (newMsgId : Nat) : SessionData :=
  { s with lastBotMessageId := some newMsgId }

-- ── Preview text: src/services/preview.ts ──
-- (That file of the snapshot is mojibake — UTF-8 read under a legacy
-- encoding; its string literals are restored to the original Russian.)

/-- Icon prefix used in button previews. -/
def previewIcon (b : MessageButton) : String :=
  if b.action = BtnAction.url then "🔗" else "💬"

/-- `buildPreviewText`. -/
def buildPreviewText (msg : ComposedMessage) : String :=
  String.intercalate "\n"
    (["📋 <b>Предпросмотр сообщения:</b>", ""]
      ++ (if msg.text ≠ "" then ["<b>Текст:</b>", msg.text]
          else ["<i>Текст не задан</i>"])
      ++ (if msg.imageFileId.isSome then
            ["", "🖼 <b>Изображение:</b> прикреплено"]
          else [])
      ++ (if msg.buttons.length > 0 then
            "" :: "<b>Кнопки:</b>" ::
              msg.buttons.map (fun row =>
                String.intercalate " "
                  (row.map fun btn =>
                    "[" ++ previewIcon btn ++ " " ++ btn.text ++ "]"))
          else []))

/-- `getStepInstruction`. -/
def getStepInstruction (step : BuilderStep) : String :=
  match step with
  | BuilderStep.write_text => "✏️ Напишите текст для сообщения:"
  | BuilderStep.add_image => "🖼 Хотите добавить изображение?"
  | BuilderStep.send_image => "📷 Отправьте мне изображение:"
  | BuilderStep.edit_buttons => "🔘 Настройте кнопки сообщения:"
  | BuilderStep.btn_text => "✏️ Напишите текст для кнопки:"
  | BuilderStep.btn_action => "⚡ Что делать при нажатии на кнопку?"
  | BuilderStep.btn_value => "📝 Введите значение для кнопки:"
  | BuilderStep.review => "👀 Проверьте сообщение перед отправкой:"
  | BuilderStep.select_group => "📢 Выберите группу или канал для отправки:"
  | BuilderStep.confirm_send => "✅ Подтвердите отправку:"
  | _ => ""

/-- `stepText` of the compose handlers: preview (when the message has any
content) above the step instruction. -/
def stepTextC (s : SessionData) (step : BuilderStep) : String :=
  if s.message.text ≠ "" || s.message.imageFileId.isSome
      || s.message.buttons.length > 0 then
    String.intercalate "\n"
      [buildPreviewText s.message, "", "─────────────────", "",
        getStepInstruction step]
  else
    getStepInstruction step

-- ── Compose-flow handlers: src/callbacks/messageBuilder.ts ──

/-- The `cancel` callback: `Object.assign(session, createDefaultSession())`
followed by re-rendering the home menu. -/
def cancelHandler (s : SessionData) (newMsgId : Nat) : SessionData × Render :=
  (showStepSend (assignDefaultSession s) newMsgId false,
    Render.show "👋 Создание сообщения отменено." Keyboard.startKb)

/-- The `+r:R` callback: insert an empty row at `R` and start creating its
first button. -/
def addRowHandler (s : SessionData) (rowIdx newMsgId : Nat) :
    SessionData × Render :=
  let s1 := { s with
    message := { s.message with
      buttons := spliceInsert s.message.buttons rowIdx [] }
    editingButton := some ⟨rowIdx, 0, true⟩
    step := BuilderStep.btn_text }
  (showStepSend s1 newMsgId false,
    Render.show (stepTextC s1 BuilderStep.btn_text)
      (Keyboard.backOnly "back_to_buttons"))

/-- The `+c:R:C` callback: start creating a button at `(R, C)`. -/
def addColHandler (s : SessionData) (rowIdx colIdx newMsgId : Nat) :
    SessionData × Render :=
  let s1 := { s with
    editingButton := some ⟨rowIdx, colIdx, true⟩
    step := BuilderStep.btn_text }
  (showStepSend s1 newMsgId false,
    Render.show (stepTextC s1 BuilderStep.btn_text)
      (Keyboard.backOnly "back_to_buttons"))

/-- The `btn_del:R:C` callback. -/
def btnDelHandler (s : SessionData) (rowIdx colIdx newMsgId : Nat) :
    SessionData × Render :=
  let s1 := { s with
    message := { s.message with
      buttons := deleteCell s.message.buttons rowIdx colIdx }
    step := BuilderStep.edit_buttons }
  (showStepSend s1 newMsgId false,
    Render.show (stepTextC s1 BuilderStep.edit_buttons)
      (Keyboard.buttonGridKb s1.message.buttons))

/-- The `back_to_buttons` callback: when a new insertion is in progress
and its row is still empty, remove that row; clear the cursor and the
staging fields; return to the grid. -/
def backToButtonsHandler (s : SessionData) (newMsgId : Nat) :
    SessionData × Render :=
  let buttons :=
    match s.editingButton with
    | some e =>
      if e.isNew then
        match s.message.buttons.get? e.row with
        | some row =>
          if row.isEmpty then spliceRemove s.message.buttons e.row
          else s.message.buttons
        | none => s.message.buttons
      else s.message.buttons
    | none => s.message.buttons
  let s1 := { s with
    message := { s.message with buttons := buttons }
    editingButton := none
    pendingButtonText := none
    pendingButtonAction := none
    step := BuilderStep.edit_buttons }
  (showStepSend s1 newMsgId false,
    Render.show (stepTextC s1 BuilderStep.edit_buttons)
      (Keyboard.buttonGridKb buttons))

/-- The compose-flow `message:text` dispatcher
(src/callbacks/messageInput.ts, switch on `session.step`); the default
branch passes the update to the next handler. -/
def composeTextHandler (s : SessionData) (input : String) (newMsgId : Nat) :
    SessionData × Render :=
  match s.step with
  | BuilderStep.write_text =>
    let s1 := { s with
      message := { s.message with text := input }
      step := BuilderStep.add_image }
    if s1.message.imageFileId.isSome then
      (showStepSend s1 newMsgId true,
        Render.show (stepTextC s1 BuilderStep.add_image) Keyboard.imageAttachedKb)
    else
      (showStepSend s1 newMsgId false,
        Render.show (stepTextC s1 BuilderStep.add_image) Keyboard.addImageKb)
  | BuilderStep.btn_text =>
    let s1 := { s with
      pendingButtonText := some input
      step := BuilderStep.btn_action }
    (showStepSend s1 newMsgId false,
      Render.show (stepTextC s1 BuilderStep.btn_action) Keyboard.buttonActionKb)
  | BuilderStep.btn_value =>
    match s.editingButton with
    | none =>
      let s1 := { s with step := BuilderStep.edit_buttons }
      (showStepSend s1 newMsgId false,
        Render.show (stepTextC s1 BuilderStep.edit_buttons)
          (Keyboard.buttonGridKb s1.message.buttons))
    | some editing =>
      let btnText := s.pendingButtonText.getD "Кнопка"
      let action := s.pendingButtonAction.getD BtnAction.alert
      let newButton : MessageButton := ⟨btnText, action, input⟩
      let buttons :=
        if editing.isNew then
          insertCell s.message.buttons editing.row editing.col newButton
        else
          replaceCell s.message.buttons editing.row editing.col newButton
      let s1 := { s with
        message := { s.message with buttons := buttons }
        editingButton := none
        pendingButtonText := none
        pendingButtonAction := none
        step := BuilderStep.edit_buttons }
      (showStepSend s1 newMsgId false,
        Render.show (stepTextC s1 BuilderStep.edit_buttons)
          (Keyboard.buttonGridKb buttons))
  | _ => (s, Render.passThrough)

-- ── Attach-flow handlers: src/callbacks/attachButtons.ts ──

/-- `ensureAttachFlow`: initializes the attach flow for sessions created
before the feature existed. -/
def ensureAttachFlow (s : SessionData) : SessionData × AttachFlowData :=
  match s.attachFlow with
  | some af => (s, af)
  | none =>
    let af : AttachFlowData := { step := AttachStep.attach_idle, buttons := [] }
    ({ s with attachFlow := some af }, af)

/-- `buildButtonsPreview` of the attach flow. -/
def buildButtonsPreview (buttons : ButtonGrid) : String :=
  if buttons.length = 0 then "<i>Кнопки пока не добавлены</i>"
  else
    String.intercalate "\n"
      ("<b>Кнопки:</b>" ::
        buttons.map fun row =>
          String.intercalate " "
            (row.map fun btn => "[" ++ previewIcon btn ++ " " ++ btn.text ++ "]"))

/-- `buildStepText` of the attach flow (grid screen). -/
def buildStepTextAttach (af : AttachFlowData) : String :=
  String.intercalate "\n"
    ["🔘 <b>Добавление кнопок к посту</b>", "", buildButtonsPreview af.buttons,
      "", "─────────────────", "", "🔘 Настройте кнопки:"]

/-- Text of the awaiting-link screen shown by `ab_buttons_done`. -/
def abAwaitLinkText (buttons : ButtonGrid) : String :=
  String.intercalate "\n"
    ["🔘 <b>Добавление кнопок к посту</b>", "", buildButtonsPreview buttons,
      "", "─────────────────", "",
      "📎 <b>Отправьте ссылку на сообщение</b> в канале или группе.", "",
      "Как получить ссылку:", "1. Откройте сообщение в канале/группе",
      "2. Нажмите на сообщение → «Копировать ссылку»", "",
      "Пример: <code>https://t.me/channel_name/123</code>"]

/-- The `ab_buttons_done` callback: requires at least one button; with
zero buttons it answers with a blocking warning alert and changes
nothing, otherwise it moves the attach flow to `attach_awaiting_url`. -/
def abButtonsDoneHandler (s : SessionData) (newMsgId : Nat) :
    SessionData × Render :=
  let p := ensureAttachFlow s
  if p.2.buttons.length = 0 then
    (p.1, Render.alertWarn "Добавьте хотя бы одну кнопку")
  else
    let af1 := { p.2 with step := AttachStep.attach_awaiting_url }
    (showStepSend { p.1 with attachFlow := some af1 } newMsgId false,
      Render.show (abAwaitLinkText af1.buttons) Keyboard.attachAwaitingUrlKb)

/-- The `ab_+r:R` callback. -/
def abAddRowHandler (s : SessionData) (rowIdx newMsgId : Nat) :
    SessionData × Render :=
  let p := ensureAttachFlow s
  let af1 := { p.2 with
    buttons := spliceInsert p.2.buttons rowIdx []
    editingButton := some ⟨rowIdx, 0, true⟩
    step := AttachStep.attach_edit_buttons
    pendingButtonText := none
    pendingButtonAction := none }
  (showStepSend { p.1 with attachFlow := some af1 } newMsgId false,
    Render.show "✏️ Напишите текст для кнопки:"
      (Keyboard.backOnly "ab_back_to_buttons"))

/-- The `ab_+c:R:C` callback. -/
def abAddColHandler (s : SessionData) (rowIdx colIdx newMsgId : Nat) :
    SessionData × Render :=
  let p := ensureAttachFlow s
  let af1 := { p.2 with
    editingButton := some ⟨rowIdx, colIdx, true⟩
    pendingButtonText := none
    pendingButtonAction := none }
  (showStepSend { p.1 with attachFlow := some af1 } newMsgId false,
    Render.show "✏️ Напишите текст для кнопки:"
      (Keyboard.backOnly "ab_back_to_buttons"))

/-- The `ab_btn_del:R:C` callback. -/
def abBtnDelHandler (s : SessionData) (rowIdx colIdx newMsgId : Nat) :
    SessionData × Render :=
  let p := ensureAttachFlow s
  let af1 := { p.2 with buttons := deleteCell p.2.buttons rowIdx colIdx }
  (showStepSend { p.1 with attachFlow := some af1 } newMsgId false,
    Render.show (buildStepTextAttach af1) (Keyboard.attachButtonGridKb af1.buttons))

/-- The `ab_back_to_buttons` callback. -/
def abBackToButtonsHandler (s : SessionData) (newMsgId : Nat) :
    SessionData × Render :=
  let p := ensureAttachFlow s
  let buttons :=
    match p.2.editingButton with
    | some e =>
      if e.isNew then
        match p.2.buttons.get? e.row with
        | some row =>
          if row.isEmpty then spliceRemove p.2.buttons e.row else p.2.buttons
        | none => p.2.buttons
      else p.2.buttons
    | none => p.2.buttons
  let af1 := { p.2 with
    buttons := buttons
    editingButton := none
    pendingButtonText := none
    pendingButtonAction := none
    step := AttachStep.attach_edit_buttons }
  (showStepSend { p.1 with attachFlow := some af1 } newMsgId false,
    Render.show (buildStepTextAttach af1) (Keyboard.attachButtonGridKb buttons))

-- ── Overflow indirection: src/services/sender.ts, src/storage/redis.ts ──

/-- A Redis entry: stored value plus its TTL in seconds. -/
structure StoredVal where
  value : String
  ttlSeconds : Nat
deriving DecidableEq

/-- The external key-value store (Upstash Redis) as an association list;
`set` prepends and `get` takes the first match; an expired or deleted
entry is simply absent. -/
abbrev RedisStore := List (String × StoredVal)

/-- `redis.get`. -/
def redisGet (st : RedisStore) (key : String) : Option String :=
  (st.find? fun e => e.1 = key).map fun e => e.2.value

/-- `redis.set(key, v, { ex: ttl })`. -/
def redisSet (st : RedisStore) (key v : String) (ttl : Nat) : RedisStore :=
  (key, ⟨v, ttl⟩) :: st

/-- `Buffer.byteLength(s, "utf-8")`: the UTF-8 byte length. -/
def byteLen (s : String) : Nat :=
  s.data.foldl (fun n c => n + c.utf8Size) 0

/-- JS `crypto.randomUUID().slice(0, 8)` (a UUID is 36 ASCII chars). -/
def jsSlice8 (s : String) : String := ⟨s.data.take 8⟩

/-- One inline-keyboard cell produced by `buildInlineKeyboard`. -/
inductive KbCell
  | urlBtn (text url : String)
  | cbBtn (text data : String)
deriving DecidableEq

/-- State threaded through `buildInlineKeyboard`: the Redis store plus the
stream of `crypto.randomUUID()` results (`uuid n` is the n-th call). -/
structure SenderState where
  store : RedisStore
  uuid : Nat → String
  uuidIdx : Nat

/-- `MAX_CALLBACK_DATA` (src/services/sender.ts). -/
def MAX_CALLBACK_DATA : Nat := 64

/-- The per-button step of `buildInlineKeyboard`: url buttons become url
cells; an alert payload `"alert:" + value` within the 64-byte
callback_data ceiling is used verbatim; an oversized payload stores the
alert text in Redis under `"alert:" + <8-char random reference>` with a
30-day TTL (2 592 000 s) and emits `"alrt:" + reference` instead. -/
def processButton (st : SenderState) (btn : MessageButton) :
    SenderState × KbCell :=
  match btn.action with
  | BtnAction.url => (st, KbCell.urlBtn btn.text btn.value)
  | BtnAction.alert =>
    let inlineData := "alert:" ++ btn.value
    if byteLen inlineData ≤ MAX_CALLBACK_DATA then
      (st, KbCell.cbBtn btn.text inlineData)
    else
      let shortId := jsSlice8 (st.uuid st.uuidIdx)
      ({ st with
          store := redisSet st.store ("alert:" ++ shortId) btn.value 2592000
          uuidIdx := st.uuidIdx + 1 },
        KbCell.cbBtn btn.text ("alrt:" ++ shortId))

/-- Left-to-right stateful map. -/
def mapState (f : σ → α → σ × β) : σ → List α → σ × List β
  | st, [] => (st, [])
  | st, a :: rest =>
    let p1 := f st a
    let p2 := mapState f p1.1 rest
    (p2.1, p1.2 :: p2.2)

/-- `buildInlineKeyboard` / `buildAttachInlineKeyboard`: rows of cells
(the grammy InlineKeyboard `.row()` bookkeeping is kept as the row
structure). -/
def buildInlineKeyboardS (st : SenderState) (buttons : ButtonGrid) :
    SenderState × List (List KbCell) :=
  mapState (fun st row => mapState processButton st row) st buttons

/-- The `alrt:<shortId>` tap handler (src/callbacks/messageBuilder.ts):
look up `alert:<shortId>` in Redis and surface the stored text, or the
fixed expired-notice sentinel when the entry is absent or expired. -/
def alrtHandler (st : RedisStore) (shortId : String) : Render :=
  Render.alertWarn
    ((redisGet st ("alert:" ++ shortId)).getD "⚠️ Уведомление устарело")

-- ── Attach-flow text input: src/callbacks/messageInput.ts ──

/-- Target of an `editMessageReplyMarkup` transport call. -/
structure EditCall where
  chatId : ChatRef
  messageId : Int
deriving DecidableEq

/-- Outcome of the `editMessageReplyMarkup` call, supplied by the
transport collaborator: success, or a raw error message to classify. -/
inductive EditOutcome
  | ok
  | err (msg : String)
deriving DecidableEq

/-- JS `String.prototype.includes`. -/
def strIncludes (s sub : String) : Bool :=
  (List.range (s.data.length + 1)).any fun i => sub.data.isPrefixOf (s.data.drop i)

/-- `escapeHtml`. -/
def escapeHtml (t : String) : String :=
  ((t.replace "&" "&amp;").replace "<" "&lt;").replace ">" "&gt;"

/-- Error classification of the attach flow (the `catch` branch). -/
def classifyAttachError (errMsg : String) : String :=
  if strIncludes errMsg "not enough rights"
      || strIncludes errMsg "CHAT_ADMIN_REQUIRED" then
    "❌ Бот не является администратором в этом канале/группе.\n\nДобавьте бота как администратора с правом <b>редактирования сообщений</b>."
  else if strIncludes errMsg "message to edit not found"
      || strIncludes errMsg "MESSAGE_ID_INVALID" then
    "❌ Сообщение не найдено.\n\nВозможно, оно было удалено или ссылка неверна."
  else if strIncludes errMsg "message can\x27t be edited" then
    "❌ Бот не может редактировать это сообщение.\n\nУбедитесь, что у бота есть право <b>«Изменение чужих сообщений»</b> (Edit messages) в настройках администратора канала/группы."
  else if strIncludes errMsg "chat not found"
      || strIncludes errMsg "CHAT_NOT_FOUND" then
    "❌ Канал или группа не найдены.\n\nПроверьте ссылку и убедитесь, что бот добавлен в этот чат."
  else
    "❌ Не удалось добавить кнопки.\n\n<code>" ++ escapeHtml errMsg ++ "</code>"

/-- The invalid-link validation message. -/
def invalidLinkText : String :=
  String.intercalate "\n"
    ["❌ <b>Неверный формат ссылки</b>", "", "Отправьте ссылку вида:",
      "• <code>https://t.me/channel_name/123</code>",
      "• <code>https://t.me/c/1234567890/123</code>"]

/-- JS truthiness of an optional string (undefined and "" are falsy). -/
def truthyStr : Option String → Bool
  | none => false
  | some s => s ≠ ""

/-- The attach-flow `message:text` handler (the second `message:text`
handler of src/callbacks/messageInput.ts). Returns the updated session,
the updated sender state (building the keyboard may write overflow
entries), the `editMessageReplyMarkup` calls issued, and the render
effect. `outcome` is the transport's reply to the edit call (unused when
no call is made); `newMsgId` is the id of the message sent by the local
`show` helper. -/
def attachTextHandler (s : SessionData) (input : String) (st : SenderState)
    (outcome : EditOutcome) (newMsgId : Nat) :
    SessionData × SenderState × List EditCall × Render :=
  let p := ensureAttachFlow s
  let s1 := p.1
  let af := p.2
  if af.step = AttachStep.attach_idle then
    (s1, st, [], Render.passThrough)
  else if af.editingButton.isSome && !truthyStr af.pendingButtonText
      && !af.pendingButtonAction.isSome then
    let af1 := { af with pendingButtonText := some input }
    (showAttachSend { s1 with attachFlow := some af1 } newMsgId, st, [],
      Render.show "⚡ Что делать при нажатии на кнопку?"
        Keyboard.attachButtonActionKb)
  else if af.editingButton.isSome && truthyStr af.pendingButtonText
      && af.pendingButtonAction.isSome then
    match af.editingButton, af.pendingButtonText, af.pendingButtonAction with
    | some editing, some btnText, some action =>
      let newButton : MessageButton := ⟨btnText, action, input⟩
      let buttons :=
        if editing.isNew then
          insertCell af.buttons editing.row editing.col newButton
        else
          replaceCell af.buttons editing.row editing.col newButton
      let af1 := { af with
        buttons := buttons
        editingButton := none
        pendingButtonText := none
        pendingButtonAction := none }
      (showAttachSend { s1 with attachFlow := some af1 } newMsgId, st, [],
        Render.show (buildStepTextAttach af1) (Keyboard.attachButtonGridKb buttons))
    | _, _, _ => (s1, st, [], Render.passThrough)
  else if af.step = AttachStep.attach_awaiting_url then
    match parseMessageLink input.data with
    | none =>
      (showAttachSend s1 newMsgId, st, [],
        Render.show invalidLinkText Keyboard.attachAwaitingUrlKb)
    | some parsed =>
      let st1 := (buildInlineKeyboardS st af.buttons).1
      match outcome with
      | EditOutcome.ok =>
        (showAttachSend
            { s1 with
              attachFlow := some { step := AttachStep.attach_idle, buttons := [] } }
            newMsgId,
          st1, [⟨parsed.chatId, parsed.messageId⟩],
          Render.show "✅ Кнопки успешно добавлены к сообщению!" Keyboard.startKb)
      | EditOutcome.err msg =>
        (showAttachSend s1 newMsgId, st1, [⟨parsed.chatId, parsed.messageId⟩],
          Render.show (classifyAttachError msg) Keyboard.attachAwaitingUrlKb)
  else
    (s1, st, [], Render.passThrough)

-- ── List helper lemmas for the splice operations ──

theorem takeLenAppend (A B : List α) : (A ++ B).take A.length = A := by
  induction A with
  | nil => rfl
  | cons a t ih => simp [List.take, ih]

theorem dropLenAppend (A B : List α) : (A ++ B).drop A.length = B := by
  induction A with
  | nil => rfl
  | cons a t ih => simp [List.drop, ih]

/-- Removing at the index where an element was just spliced in restores the
original list, as long as the insertion index was within range. -/
theorem spliceRemove_spliceInsert (l : List α) (i : Nat) (a : α)
    (h : i ≤ l.length) : spliceRemove (spliceInsert l i a) i = l := by
  have htake : l.take i ++ a :: l.drop i = (l.take i ++ [a]) ++ l.drop i := by
    simp
  have hlen : (l.take i).length = i := by
    rw [List.length_take]
    exact Nat.min_eq_left h
  unfold spliceInsert spliceRemove
  rw [htake]
  have h1 : ((l.take i ++ [a]) ++ l.drop i).take i = l.take i := by
    have := takeLenAppend (l.take i) ([a] ++ l.drop i)
    rw [hlen] at this
    simpa using this
  have h2 : ((l.take i ++ [a]) ++ l.drop i).drop (i + 1) = l.drop i := by
    have := dropLenAppend (l.take i ++ [a]) (l.drop i)
    have hlen2 : (l.take i ++ [a]).length = i + 1 := by simp [hlen]
    rw [hlen2] at this
    exact this
  rw [h1, h2, List.take_append_drop]

theorem getq_set_self (l : List α) (i : Nat) (a : α) (h : i < l.length) :
    (l.set i a).get? i = some a := by
  induction l generalizing i with
  | nil => simp at h
  | cons x t ih =>
    cases i with
    | zero => rfl
    | succ j =>
      simp only [List.set, List.get?]
      exact ih j (by simpa using h)

theorem set_getq_self (l : List α) (i : Nat) (x : α)
    (h : l.get? i = some x) : l.set i x = l := by
  induction l generalizing i with
  | nil => simp
  | cons a t ih =>
    cases i with
    | zero => simp_all [List.get?]
    | succ j =>
      simp only [List.get?] at h
      simp [List.set, ih j h]

theorem getq_append_len (A : List α) (x : α) :
    (A ++ [x]).get? A.length = some x := by
  induction A with
  | nil => rfl
  | cons a t ih => exact ih

theorem spliceRemove_append_last (A : List α) (x : α) :
    spliceRemove (A ++ [x]) A.length = A := by
  unfold spliceRemove
  rw [takeLenAppend A [x]]
  have : (A ++ [x]).drop (A.length + 1) = [] := by
    have hl : A.length + 1 = (A ++ [x]).length := by simp
    rw [hl, List.drop_length]
  rw [this, List.append_nil]

theorem getq_mem {l : List α} {i : Nat} {a : α} (h : l.get? i = some a) :
    a ∈ l := by
  induction l generalizing i with
  | nil => simp at h
  | cons x t ih =>
    cases i with
    | zero => simp_all [List.get?]
    | succ j =>
      simp only [List.get?] at h
      exact List.mem_cons_of_mem _ (ih h)

-- ── C1: insert/delete round-trip on the button grid ──

/-- C1 (counterexample): the round-trip `deleteCell (insertCell G r c b) r c = G`
fails when the column index is past the end of the target row, because JS
splice clamps the insertion position but the later deletion at the same
out-of-range index removes nothing: inserting at column 5 of a one-button
row lands at column 1, and deleting at column 5 is a no-op. -/
theorem insert_delete_roundtrip_cex :
    deleteCell
        (insertCell [[⟨"A", BtnAction.url, "https://a.com"⟩]] 0 5
          ⟨"B", BtnAction.alert, "hi"⟩) 0 5
      ≠ [[⟨"A", BtnAction.url, "https://a.com"⟩]] := by
  decide

/-- C1 (amended): for a grid with no empty persisted rows and in-range
coordinates — row index at most the row count (equality appending a fresh
row) and column index at most the target row's length — deleting the cell
at `(r,c)` of `insertCell g r c b` restores `g` exactly, including the case
where the insertion created a new row that the deletion must remove. -/
theorem insertCell_deleteCell_roundtrip (g : ButtonGrid) (r c : Nat)
    (b : MessageButton) (hrows : ∀ row ∈ g, row ≠ [])
    (hr : r ≤ g.length) (hc : c ≤ rowLen g r) :
    deleteCell (insertCell g r c b) r c = g := by
  rcases Nat.lt_or_ge r g.length with hlt | hge
  · have hrow : g.get? r = some ((g.get? r).getD []) := by
      cases hq : g.get? r with
      | none => exact absurd (List.get?_eq_none.mp hq) (Nat.not_le.mpr hlt)
      | some row => rfl
    have hrneq : (g.get? r).getD [] ≠ [] := hrows _ (getq_mem hrow)
    have hclen : c ≤ ((g.get? r).getD []).length := hc
    have hins : insertCell g r c b
        = g.set r (spliceInsert ((g.get? r).getD []) c b) := by
      unfold insertCell
      rw [if_pos hlt]
    rw [hins]
    unfold deleteCell
    have hlt2 : r < (g.set r (spliceInsert ((g.get? r).getD []) c b)).length := by
      simpa using hlt
    rw [if_pos hlt2, getq_set_self _ _ _ hlt]
    simp only [Option.getD_some, spliceRemove_spliceInsert _ _ _ hclen]
    have hemp : ((g.get? r).getD []).isEmpty = false := by
      cases hq : (g.get? r).getD []
      · exact absurd hq hrneq
      · rfl
    rw [hemp]
    simp only [Bool.false_eq_true, if_false, List.set_set]
    exact set_getq_self g r _ hrow
  · have heq : r = g.length := Nat.le_antisymm hr hge
    subst heq
    have hc0 : c = 0 := by
      have h0 : rowLen g g.length = 0 := by
        unfold rowLen
        rw [List.get?_eq_none.mpr (Nat.le_refl _)]
        rfl
      exact Nat.le_zero.mp (h0 ▸ hc)
    subst hc0
    have hins : insertCell g g.length 0 b = g ++ [[b]] := by
      unfold insertCell
      rw [if_neg (lt_irrefl _)]
      rfl
    rw [hins]
    unfold deleteCell
    have hlt2 : g.length < (g ++ [[b]]).length := by simp
    rw [if_pos hlt2, getq_append_len g [b]]
    simp only [Option.getD_some]
    have hsp : spliceRemove [b] 0 = [] := rfl
    rw [hsp]
    simp only [List.isEmpty_nil, if_true]
    exact spliceRemove_append_last g [b]

/-- C1 (witness): the amended round-trip at a concrete input that
exercises the row-creation case. -/
theorem insertCell_deleteCell_roundtrip_witness :
    deleteCell
        (insertCell [[⟨"A", BtnAction.url, "https://a.com"⟩]] 1 0
          ⟨"B", BtnAction.alert, "hi"⟩) 1 0
      = [[⟨"A", BtnAction.url, "https://a.com"⟩]] :=
  insertCell_deleteCell_roundtrip _ 1 0 _ (by decide) (by decide) (by decide)

-- ── Link-resolver lemmas (C2, C7) ──

theorem eatLit_append (L Y : List Char) : eatLit L (L ++ Y) = some Y := by
  induction L with
  | nil => rfl
  | cons l t ih => simp [eatLit, ih]

theorem digit_ne {c : Char} (h : c.isDigit = true) (d : Char)
    (hd : d.isDigit = false) : c ≠ d := by
  intro he
  subst he
  rw [h] at hd
  cases hd

theorem takeWhile_all (p : Char → Bool) (l : List Char)
    (h : ∀ c ∈ l, p c = true) : l.takeWhile p = l := by
  induction l with
  | nil => rfl
  | cons a t ih =>
    simp [h a (List.mem_cons_self a t),
      ih fun c hc => h c (List.mem_cons_of_mem a hc)]

theorem takeWhile_append_stop (p : Char → Bool) (l : List Char) (x : Char)
    (r : List Char) (hl : ∀ c ∈ l, p c = true) (hx : p x = false) :
    (l ++ x :: r).takeWhile p = l ∧ (l ++ x :: r).dropWhile p = x :: r := by
  induction l with
  | nil => simp [hx]
  | cons a t ih =>
    have ha := hl a (List.mem_cons_self a t)
    have iht := ih fun c hc => hl c (List.mem_cons_of_mem a hc)
    simp [ha, iht.1, iht.2]

theorem scanFirst_eq_none (f : List Char → Option α) (s : List Char)
    (h : ∀ t, t <:+ s → f t = none) : scanFirst f s = none := by
  induction s with
  | nil => simpa [scanFirst] using h [] (List.suffix_refl [])
  | cons c t ih =>
    unfold scanFirst
    rw [h (c :: t) (List.suffix_refl _), Option.none_orElse]
    exact ih fun u hu => h u (hu.trans (List.suffix_cons c t))

theorem scanFirst_eq_some_head (f : List Char → Option α) (s : List Char)
    (v : α) (h : f s = some v) : scanFirst f s = some v := by
  cases s with
  | nil => simpa [scanFirst] using h
  | cons c t =>
    unfold scanFirst
    rw [h, Option.some_orElse]

theorem suffix_append_split {t A B : List α} (h : t <:+ A ++ B) :
    t <:+ B ∨ ∃ S, S <:+ A ∧ t = S ++ B := by
  induction A with
  | nil => exact Or.inl (by simpa using h)
  | cons a A ih =>
    rcases List.suffix_cons_iff.mp (by simpa using h) with heq | hsuf
    · exact Or.inr ⟨a :: A, List.suffix_refl _, by simpa using heq⟩
    · rcases ih hsuf with hB | ⟨S, hS, rfl⟩
      · exact Or.inl hB
      · exact Or.inr ⟨S, hS.trans (List.suffix_cons a A), rfl⟩

theorem matchPublicAt_cons_none (c : Char) (rest : List Char)
    (h1 : c ≠ 'h') (h2 : c ≠ 't') : matchPublicAt (c :: rest) = none := by
  simp [matchPublicAt, publicBody, eatLit, httpsChars, httpChars, tMeChars,
    h1, h2]

theorem matchPublicAt_t_head (c2 : Char) (rest : List Char) (h : c2 ≠ '.') :
    matchPublicAt ('t' :: c2 :: rest) = none := by
  simp [matchPublicAt, publicBody, eatLit, httpsChars, httpChars, tMeChars, h]

theorem matchPublicAt_full_priv (X : List Char) :
    matchPublicAt
        ('h' :: 't' :: 't' :: 'p' :: 's' :: ':' :: '/' :: '/' ::
          't' :: '.' :: 'm' :: 'e' :: '/' :: 'c' :: '/' :: X) = none := by
  have hu : isUserStart 'c' = true := by decide
  have hw : isWordChar '/' = false := by decide
  simp [matchPublicAt, publicBody, eatLit, httpsChars, httpChars, tMeChars,
    hu, hw]

theorem matchPublicAt_tmec (X : List Char) :
    matchPublicAt
        ('t' :: '.' :: 'm' :: 'e' :: '/' :: 'c' :: '/' :: X) = none := by
  have hu : isUserStart 'c' = true := by decide
  have hw : isWordChar '/' = false := by decide
  simp [matchPublicAt, publicBody, eatLit, httpsChars, httpChars, tMeChars,
    hu, hw]

theorem matchPublicAt_none_tail (frag msgid : List Char)
    (hfd : ∀ c ∈ frag, c.isDigit = true)
    (hmd : ∀ c ∈ msgid, c.isDigit = true) :
    ∀ t, t <:+ frag ++ '/' :: msgid → matchPublicAt t = none := by
  intro t ht
  rcases suffix_append_split ht with h2 | ⟨F, hF, rfl⟩
  · rcases List.suffix_cons_iff.mp h2 with rfl | h3
    · exact matchPublicAt_cons_none '/' msgid (by decide) (by decide)
    · cases t with
      | nil => decide
      | cons d t2 =>
        have hd := hmd d (h3.subset (List.mem_cons_self d t2))
        exact matchPublicAt_cons_none d t2 (digit_ne hd 'h' (by decide))
          (digit_ne hd 't' (by decide))
  · cases F with
    | nil =>
      simp only [List.nil_append]
      exact matchPublicAt_cons_none '/' msgid (by decide) (by decide)
    | cons d F2 =>
      have hd := hfd d (hF.subset (List.mem_cons_self d F2))
      simp only [List.cons_append]
      exact matchPublicAt_cons_none d (F2 ++ '/' :: msgid)
        (digit_ne hd 'h' (by decide)) (digit_ne hd 't' (by decide))

theorem scanPub_none (frag msgid : List Char)
    (hfd : ∀ c ∈ frag, c.isDigit = true)
    (hmd : ∀ c ∈ msgid, c.isDigit = true) :
    scanFirst matchPublicAt
        (httpsChars ++ (tMeCChars ++ (frag ++ '/' :: msgid))) = none := by
  apply scanFirst_eq_none
  intro t ht
  have ht2 : t <:+ (httpsChars ++ tMeCChars) ++ (frag ++ '/' :: msgid) := by
    simpa [List.append_assoc] using ht
  rcases suffix_append_split ht2 with hB | ⟨S, hS, rfl⟩
  · exact matchPublicAt_none_tail frag msgid hfd hmd t hB
  · have hmem : S ∈ (httpsChars ++ tMeCChars).tails := (List.mem_tails _ _).mpr hS
    have hl : httpsChars ++ tMeCChars
        = ['h', 't', 't', 'p', 's', ':', '/', '/',
           't', '.', 'm', 'e', '/', 'c', '/'] := by decide
    rw [hl] at hmem
    simp [List.tails] at hmem
    rcases hmem with rfl | rfl | rfl | rfl | rfl | rfl | rfl | rfl | rfl |
      rfl | rfl | rfl | rfl | rfl | rfl | rfl
    all_goals simp only [List.cons_append, List.nil_append]
    all_goals first
      | exact matchPublicAt_full_priv _
      | exact matchPublicAt_tmec _
      | exact matchPublicAt_t_head _ _ (by decide)
      | exact matchPublicAt_cons_none _ _ (by decide) (by decide)
      | exact matchPublicAt_none_tail frag msgid hfd hmd _ (List.suffix_refl _)

theorem privateBody_eval (Y : List Char) :
    privateBody (tMeCChars ++ Y) =
      (if (Y.takeWhile Char.isDigit).isEmpty then none
       else
         match Y.dropWhile Char.isDigit with
         | '/' :: r =>
           if (r.takeWhile Char.isDigit).isEmpty then none
           else some (Y.takeWhile Char.isDigit, r.takeWhile Char.isDigit)
         | _ => none) := by
  unfold privateBody
  rw [eatLit_append]

theorem matchPrivateAt_priv (frag msgid : List Char)
    (hf : frag ≠ []) (hfd : ∀ c ∈ frag, c.isDigit = true)
    (hm : msgid ≠ []) (hmd : ∀ c ∈ msgid, c.isDigit = true) :
    matchPrivateAt (httpsChars ++ (tMeCChars ++ (frag ++ '/' :: msgid)))
      = some (frag, msgid) := by
  have h1 : (eatLit httpsChars
      (httpsChars ++ (tMeCChars ++ (frag ++ '/' :: msgid)))).bind privateBody
      = some (frag, msgid) := by
    rw [eatLit_append, Option.some_bind, privateBody_eval]
    have hsplit := takeWhile_append_stop Char.isDigit frag '/' msgid hfd
      (by decide)
    rw [hsplit.1, hsplit.2]
    have hfe : frag.isEmpty = false := by
      cases frag
      · exact absurd rfl hf
      · rfl
    have hme : msgid.isEmpty = false := by
      cases msgid
      · exact absurd rfl hm
      · rfl
    simp [hfe, hme, takeWhile_all Char.isDigit msgid hmd]
  unfold matchPrivateAt
  rw [h1, Option.some_orElse]

theorem trimJs_eq_self (s : List Char)
    (h1 : ∀ c, s.head? = some c → jsWhitespace c = false)
    (h2 : ∀ c, s.reverse.head? = some c → jsWhitespace c = false) :
    trimJs s = s := by
  unfold trimJs
  have hd : s.dropWhile jsWhitespace = s := by
    cases s with
    | nil => rfl
    | cons a t => simp [h1 a rfl]
  rw [hd]
  have hr : s.reverse.dropWhile jsWhitespace = s.reverse := by
    cases hrv : s.reverse with
    | nil => rfl
    | cons z rest => simp [h2 z (by rw [hrv]; rfl)]
  rw [hr, List.reverse_reverse]

theorem parseIntDec_digits (l : List Char) (hl : ∀ c ∈ l, c.isDigit = true) :
    parseIntDec l = (digitsToNat l : Int) := by
  cases l with
  | nil => rfl
  | cons d t =>
    have hd : d ≠ '-' := digit_ne (hl d (List.mem_cons_self d t)) '-' (by decide)
    have h1 : parseIntDec (d :: t)
        = (digitsToNat ((d :: t).takeWhile Char.isDigit) : Int) := by
      unfold parseIntDec
      split
      · next t2 heq => exact absurd (by injection heq) hd
      · rfl
    rw [h1, takeWhile_all Char.isDigit (d :: t) hl]

theorem digit_not_ws {c : Char} (h : c.isDigit = true) :
    jsWhitespace c = false := by
  simp [jsWhitespace, digit_ne h ' ' (by decide), digit_ne h '\t' (by decide),
    digit_ne h '\n' (by decide), digit_ne h '\r' (by decide),
    digit_ne h '\x0b' (by decide), digit_ne h '\x0c' (by decide),
    digit_ne h ' ' (by decide), digit_ne h '﻿' (by decide)]

-- ── C2: private-link chat-id reconstruction ──

/-- C2: for every private-form message link
`https://t.me/c/<frag>/<msgid>` with non-empty digit fragments, the
resolver returns the chat id obtained by literally concatenating the
string `-100` with the fragment's digits and parsing the result as a
signed integer (not an arithmetic multiply-and-subtract), together with
the link's message id. -/
theorem private_link_resolution (frag msgid : List Char)
    (hf : frag ≠ []) (hfd : ∀ c ∈ frag, c.isDigit = true)
    (hm : msgid ≠ []) (hmd : ∀ c ∈ msgid, c.isDigit = true) :
    parseMessageLink (httpsChars ++ (tMeCChars ++ (frag ++ '/' :: msgid)))
      = some ⟨ChatRef.num (parseIntDec ('-' :: '1' :: '0' :: '0' :: frag)),
          parseIntDec msgid⟩
    ∧ parseIntDec ('-' :: '1' :: '0' :: '0' :: frag)
      = -(digitsToNat ('1' :: '0' :: '0' :: frag) : Int)
    ∧ parseIntDec msgid = (digitsToNat msgid : Int) := by
  refine ⟨?_, ?_, parseIntDec_digits msgid hmd⟩
  · have htrim : trimJs (httpsChars ++ (tMeCChars ++ (frag ++ '/' :: msgid)))
        = httpsChars ++ (tMeCChars ++ (frag ++ '/' :: msgid)) := by
      apply trimJs_eq_self
      · intro c hc
        have hch : 'h' = c := by simpa [httpsChars] using hc
        subst hch
        decide
      · intro c hc
        have hU : httpsChars ++ (tMeCChars ++ (frag ++ '/' :: msgid))
            = (httpsChars ++ (tMeCChars ++ (frag ++ ['/']))) ++ msgid := by
          simp
        rw [hU, List.reverse_append] at hc
        cases hrv : msgid.reverse with
        | nil => exact absurd (List.reverse_eq_nil_iff.mp hrv) hm
        | cons z w =>
          rw [hrv] at hc
          have hzc : z = c := by simpa using hc
          subst hzc
          have hz : z ∈ msgid := by
            have : z ∈ msgid.reverse := by
              rw [hrv]
              exact List.mem_cons_self z w
            simpa using this
          exact digit_not_ws (hmd z hz)
    unfold parseMessageLink
    rw [htrim, scanPub_none frag msgid hfd hmd,
      scanFirst_eq_some_head _ _ _ (matchPrivateAt_priv frag msgid hf hfd hm hmd)]
  · have hall : ∀ c ∈ ('1' :: '0' :: '0' :: frag), c.isDigit = true := by
      intro c hc
      rcases List.mem_cons.mp hc with rfl | hc
      · decide
      rcases List.mem_cons.mp hc with rfl | hc
      · decide
      rcases List.mem_cons.mp hc with rfl | hc
      · decide
      exact hfd c hc
    have h1 : parseIntDec ('-' :: '1' :: '0' :: '0' :: frag)
        = -(digitsToNat (('1' :: '0' :: '0' :: frag).takeWhile Char.isDigit) : Int) :=
      rfl
    rw [h1, takeWhile_all Char.isDigit _ hall]

/-- C2 (witness): the spec's concrete example — fragment `1234567890`
yields chat id `-1001234567890` exactly. -/
theorem private_link_resolution_witness :
    parseMessageLink "https://t.me/c/1234567890/99".data
      = some ⟨ChatRef.num (-1001234567890), 99⟩ := by
  have h := (private_link_resolution "1234567890".data "99".data
    (by decide) (by decide) (by decide) (by decide)).1
  have he : "https://t.me/c/1234567890/99".data
      = httpsChars ++ (tMeCChars ++ ("1234567890".data ++ '/' :: "99".data)) := by
    decide
  rw [he, h]
  decide

-- ── C7: the resolver is total and deterministic ──

/-- C7: `parseMessageLink` is a pure total function of the input string:
every input yields either a parsed link or the explicit no-match result
`none` (never an exception — all partial JS operations are embedded with
their defined fallbacks), and a non-link input such as `"not a url"`
yields the explicit no-match. -/
theorem parseMessageLink_total :
    (∀ url : List Char,
      parseMessageLink url = none ∨ ∃ p, parseMessageLink url = some p)
    ∧ parseMessageLink "not a url".data = none := by
  constructor
  · intro url
    cases h : parseMessageLink url with
    | none => exact Or.inl rfl
    | some p => exact Or.inr ⟨p, rfl⟩
  · decide

-- ── C4: cancel in the compose flow ──

/-- C4 (counterexample): the cancel handler does not discard the transient
edit cursor, the pending button staging fields, or the selected target
chat — `Object.assign(session, createDefaultSession())` copies only the
keys `step` and `message` of the default-session literal, so every other
field survives.  Concretely, cancelling a session holding staged data
leaves all four fields set. -/
theorem cancel_discards_cex :
    ((cancelHandler
        { step := BuilderStep.select_group
          message := { text := "hello", buttons := [[⟨"B", BtnAction.alert, "v"⟩]] }
          editingButton := some ⟨0, 0, true⟩
          pendingButtonText := some "staged"
          pendingButtonAction := some BtnAction.url
          targetGroupId := some 42 } 7).1.targetGroupId ≠ none)
    ∧ ((cancelHandler
        { step := BuilderStep.select_group
          message := { text := "hello", buttons := [[⟨"B", BtnAction.alert, "v"⟩]] }
          editingButton := some ⟨0, 0, true⟩
          pendingButtonText := some "staged"
          pendingButtonAction := some BtnAction.url
          targetGroupId := some 42 } 7).1.pendingButtonText ≠ none)
    ∧ ((cancelHandler
        { step := BuilderStep.select_group
          message := { text := "hello", buttons := [[⟨"B", BtnAction.alert, "v"⟩]] }
          editingButton := some ⟨0, 0, true⟩
          pendingButtonText := some "staged"
          pendingButtonAction := some BtnAction.url
          targetGroupId := some 42 } 7).1.pendingButtonAction ≠ none)
    ∧ ((cancelHandler
        { step := BuilderStep.select_group
          message := { text := "hello", buttons := [[⟨"B", BtnAction.alert, "v"⟩]] }
          editingButton := some ⟨0, 0, true⟩
          pendingButtonText := some "staged"
          pendingButtonAction := some BtnAction.url
          targetGroupId := some 42 } 7).1.editingButton ≠ none) := by
  decide

/-- C4 (amended): handling cancel in any compose-flow session state resets
the step to idle and replaces the composed message (text, image, grid)
with the fresh default, re-rendering the home menu; the transient edit
cursor, the pending button text/action staging fields and the selected
target chat are left as they were. -/
theorem cancel_resets_step_and_message (s : SessionData) (m : Nat) :
    cancelHandler s m
      = ({ s with
            step := BuilderStep.idle
            message := { text := "", buttons := [] }
            lastBotMessageId := some m
            lastBotMessageIsPhoto := some false },
         Render.show "👋 Создание сообщения отменено." Keyboard.startKb) := by
  rfl

-- ── C9: overflow-reference resolution on tap ──

/-- C9: resolving a tapped overflow reference looks `alert:<ref>` up in
the key-value store; a present entry surfaces the stored alert text
unchanged, an absent (deleted or expired) entry surfaces the fixed
expired-notice sentinel; the handler is a total function and never
fails the interaction. -/
theorem alert_resolution (st : RedisStore) (shortId : String) :
    (∀ v, redisGet st ("alert:" ++ shortId) = some v →
      alrtHandler st shortId = Render.alertWarn v)
    ∧ (redisGet st ("alert:" ++ shortId) = none →
      alrtHandler st shortId = Render.alertWarn "⚠️ Уведомление устарело") := by
  constructor
  · intro v hv
    unfold alrtHandler
    rw [hv]
    rfl
  · intro hv
    unfold alrtHandler
    rw [hv]
    rfl

/-- C9 (witness): a stored reference resolves to its text; an absent one
resolves to the sentinel. -/
theorem alert_resolution_witness :
    alrtHandler [("alert:abc", ⟨"hello", 2592000⟩)] "abc"
      = Render.alertWarn "hello"
    ∧ alrtHandler [] "abc" = Render.alertWarn "⚠️ Уведомление устарело" :=
  ⟨(alert_resolution _ _).1 "hello" (by decide),
    (alert_resolution _ _).2 (by decide)⟩

-- ── C5: grid-done in the attach flow needs at least one button ──

/-- C5: requesting the editing-buttons → awaiting-link transition
(`ab_buttons_done`) with zero buttons is rejected in place with a
non-blocking warning and no state change at all; with at least one button
it sets the attach-flow step to awaiting-link. -/
theorem grid_done_requires_buttons (s : SessionData) (af : AttachFlowData)
    (m : Nat) (h : s.attachFlow = some af) :
    (af.buttons = [] →
      abButtonsDoneHandler s m
        = (s, Render.alertWarn "Добавьте хотя бы одну кнопку"))
    ∧ (af.buttons ≠ [] →
      (abButtonsDoneHandler s m).1
        = showStepSend
            { s with
              attachFlow := some { af with step := AttachStep.attach_awaiting_url } }
            m false) := by
  constructor
  · intro hb
    unfold abButtonsDoneHandler ensureAttachFlow
    rw [h]
    simp [hb]
  · intro hb
    have hlen : af.buttons.length ≠ 0 := by
      cases hb2 : af.buttons
      · exact absurd hb2 hb
      · simp [hb2]
    unfold abButtonsDoneHandler ensureAttachFlow
    rw [h]
    simp [hlen]

/-- C5 (witness): zero buttons — rejected with the warning, session
unchanged; one button — step moves to awaiting-link. -/
theorem grid_done_requires_buttons_witness :
    abButtonsDoneHandler
        { step := BuilderStep.idle
          message := { text := "" }
          attachFlow := some { step := AttachStep.attach_edit_buttons, buttons := [] } } 5
      = ({ step := BuilderStep.idle
           message := { text := "" }
           attachFlow := some { step := AttachStep.attach_edit_buttons, buttons := [] } },
         Render.alertWarn "Добавьте хотя бы одну кнопку")
    ∧ ((abButtonsDoneHandler
        { step := BuilderStep.idle
          message := { text := "" }
          attachFlow := some
            { step := AttachStep.attach_edit_buttons
              buttons := [[⟨"A", BtnAction.url, "u"⟩]] } } 5).1.attachFlow
        = some { step := AttachStep.attach_awaiting_url
                 buttons := [[⟨"A", BtnAction.url, "u"⟩]] }) := by
  constructor
  · exact (grid_done_requires_buttons _ _ 5 rfl).1 rfl
  · rw [(grid_done_requires_buttons _ _ 5 rfl).2 (by decide)]
    rfl

-- ── C10: missing staged button text defaults, insertion still happens ──

/-- C10: completing entering-button-value in the compose flow with the
staged button text missing does not fail and does not abort the
insertion — the button is still assembled and placed (inserted when
`isNew`, overwritten otherwise) with the fixed default label `Кнопка`, the
step returns to editing-buttons, and a missing staged action defaults to
`alert`. -/
theorem btn_value_defaults (s : SessionData) (input : String) (m : Nat)
    (e : EditingButton) (hstep : s.step = BuilderStep.btn_value)
    (he : s.editingButton = some e) (htext : s.pendingButtonText = none) :
    ((composeTextHandler s input m).1.message.buttons
        = (if e.isNew then
            insertCell s.message.buttons e.row e.col
              ⟨"Кнопка", s.pendingButtonAction.getD BtnAction.alert, input⟩
          else
            replaceCell s.message.buttons e.row e.col
              ⟨"Кнопка", s.pendingButtonAction.getD BtnAction.alert, input⟩))
    ∧ (composeTextHandler s input m).1.step = BuilderStep.edit_buttons
    ∧ (s.pendingButtonAction = none →
        s.pendingButtonAction.getD BtnAction.alert = BtnAction.alert) := by
  unfold composeTextHandler
  rw [hstep, he, htext]
  refine ⟨?_, ?_, ?_⟩
  · cases hnew : e.isNew <;> simp [hnew, showStepSend]
  · cases hnew : e.isNew <;> simp [hnew, showStepSend]
  · intro ha
    rw [ha]
    rfl

/-- C10 (witness): with no staged text and no staged action the inserted
button is `{Кнопка, alert, <input>}`. -/
theorem btn_value_defaults_witness :
    (composeTextHandler
        { step := BuilderStep.btn_value
          message := { text := "" }
          editingButton := some ⟨0, 0, true⟩ } "v" 3).1.message.buttons
      = [[⟨"Кнопка", BtnAction.alert, "v"⟩]] := by
  rw [(btn_value_defaults _ "v" 3 ⟨0, 0, true⟩ rfl rfl rfl).1]
  decide

-- ── C8: back navigation undoes an in-progress insertion ──

theorem getq_append_mid (A B : List α) (a : α) :
    (A ++ a :: B).get? A.length = some a := by
  induction A with
  | nil => rfl
  | cons x t ih => exact ih

theorem getq_spliceInsert_self (l : List α) (i : Nat) (a : α)
    (h : i ≤ l.length) : (spliceInsert l i a).get? i = some a := by
  have hlen : (l.take i).length = i := by
    rw [List.length_take]
    exact Nat.min_eq_left h
  have := getq_append_mid (l.take i) (l.drop i) a
  rw [hlen] at this
  exact this

/-- C8: a back navigation out of the button-creation states that was
started as an insertion (`isNew = true`) restores the grid to its exact
pre-insertion shape, in both the compose flow and the attach flow: after
a row insertion the now-empty row is removed entirely; after a column
insertion (no cell placed yet) the grid and its row count are unchanged.
Needs the persisted no-empty-row invariant and an in-range row index. -/
theorem back_undoes_insertion (s : SessionData) (r c m m2 : Nat)
    (hrows : ∀ row ∈ s.message.buttons, row ≠ ([] : List MessageButton))
    (hr : r ≤ s.message.buttons.length) :
    ((backToButtonsHandler (addRowHandler s r m).1 m2).1.message.buttons
        = s.message.buttons)
    ∧ ((backToButtonsHandler (addColHandler s r c m).1 m2).1.message.buttons
        = s.message.buttons)
    ∧ (∀ af, s.attachFlow = some af →
        (∀ row ∈ af.buttons, row ≠ ([] : List MessageButton)) →
        r ≤ af.buttons.length →
        ((abBackToButtonsHandler (abAddRowHandler s r m).1 m2).1.attachFlow.map
            AttachFlowData.buttons = some af.buttons)
        ∧ ((abBackToButtonsHandler (abAddColHandler s r c m).1 m2).1.attachFlow.map
            AttachFlowData.buttons = some af.buttons)) := by
  refine ⟨?_, ?_, ?_⟩
  · have h1 : (spliceInsert s.message.buttons r ([] : List MessageButton))[r]?
        = some ([] : List MessageButton) := by
      rw [← List.get?_eq_getElem?]
      exact getq_spliceInsert_self _ _ _ hr
    unfold backToButtonsHandler addRowHandler showStepSend
    simp [h1, spliceRemove_spliceInsert _ _ _ hr]
  · unfold backToButtonsHandler addColHandler showStepSend
    cases hq : s.message.buttons[r]? with
    | none => simp [hq]
    | some row =>
      have hq2 : s.message.buttons.get? r = some row := by
        rw [List.get?_eq_getElem?]
        exact hq
      have hne : row ≠ [] := hrows row (getq_mem hq2)
      simp [hq, hne]
  · intro af haf hafrows hafr
    constructor
    · have h1 : (spliceInsert af.buttons r ([] : List MessageButton))[r]?
          = some ([] : List MessageButton) := by
        rw [← List.get?_eq_getElem?]
        exact getq_spliceInsert_self _ _ _ hafr
      unfold abBackToButtonsHandler abAddRowHandler ensureAttachFlow showStepSend
      rw [haf]
      simp [h1, spliceRemove_spliceInsert _ _ _ hafr]
    · unfold abBackToButtonsHandler abAddColHandler ensureAttachFlow showStepSend
      rw [haf]
      cases hq : af.buttons[r]? with
      | none => simp [hq]
      | some row =>
        have hq2 : af.buttons.get? r = some row := by
          rw [List.get?_eq_getElem?]
          exact hq
        have hne : row ≠ [] := hafrows row (getq_mem hq2)
        simp [hq, hne]

/-- C8 (witness): both flows at a concrete grid — a cancelled row
insertion removes the fresh empty row, a cancelled column insertion
leaves the grid untouched. -/
theorem back_undoes_insertion_witness :
    ((backToButtonsHandler
        (addRowHandler
          { step := BuilderStep.edit_buttons
            message := { text := "", buttons := [[⟨"A", BtnAction.url, "u"⟩]] }
            attachFlow := some
              { step := AttachStep.attach_edit_buttons
                buttons := [[⟨"B", BtnAction.alert, "w"⟩]] } } 1 3).1 4).1.message.buttons
      = [[⟨"A", BtnAction.url, "u"⟩]])
    ∧ ((abBackToButtonsHandler
        (abAddColHandler
          { step := BuilderStep.edit_buttons
            message := { text := "", buttons := [[⟨"A", BtnAction.url, "u"⟩]] }
            attachFlow := some
              { step := AttachStep.attach_edit_buttons
                buttons := [[⟨"B", BtnAction.alert, "w"⟩]] } } 0 1 3).1 4).1.attachFlow.map
          AttachFlowData.buttons
      = some [[⟨"B", BtnAction.alert, "w"⟩]]) := by
  constructor
  · exact (back_undoes_insertion
      { step := BuilderStep.edit_buttons
        message := { text := "", buttons := [[⟨"A", BtnAction.url, "u"⟩]] }
        attachFlow := some
          { step := AttachStep.attach_edit_buttons
            buttons := [[⟨"B", BtnAction.alert, "w"⟩]] } } 1 0 3 4
      (by decide) (by decide)).1
  · exact ((back_undoes_insertion
      { step := BuilderStep.edit_buttons
        message := { text := "", buttons := [[⟨"A", BtnAction.url, "u"⟩]] }
        attachFlow := some
          { step := AttachStep.attach_edit_buttons
            buttons := [[⟨"B", BtnAction.alert, "w"⟩]] } } 0 1 3 4
      (by decide) (by decide)).2.2
      { step := AttachStep.attach_edit_buttons
        buttons := [[⟨"B", BtnAction.alert, "w"⟩]] } rfl
      (by decide) (by decide)).2

-- ── C6: awaiting-link failures leave the attach flow unchanged ──

/-- C6: at awaiting-link with no in-progress button edit, an input that
fails link parsing causes no `editMessageReplyMarkup` call at all, leaves
the attach-flow state (step and built grid) exactly as it was, leaves the
overflow store untouched, and renders only the validation message; when
the link parses but the transport call fails, exactly one call against
the resolved (chat, message) pair was made, and the attach-flow state is
again fully preserved so the user can retry. -/
theorem awaiting_link_errors_preserve_state (s : SessionData)
    (af : AttachFlowData) (input : String) (st : SenderState)
    (outcome : EditOutcome) (m : Nat)
    (h : s.attachFlow = some af)
    (hstep : af.step = AttachStep.attach_awaiting_url)
    (hed : af.editingButton = none) :
    (parseMessageLink input.data = none →
      attachTextHandler s input st outcome m
        = (showAttachSend s m, st, [],
            Render.show invalidLinkText Keyboard.attachAwaitingUrlKb))
    ∧ (∀ p msg, parseMessageLink input.data = some p →
        outcome = EditOutcome.err msg →
        attachTextHandler s input st outcome m
          = (showAttachSend s m, (buildInlineKeyboardS st af.buttons).1,
              [⟨p.chatId, p.messageId⟩],
              Render.show (classifyAttachError msg)
                Keyboard.attachAwaitingUrlKb)) := by
  constructor
  · intro hp
    unfold attachTextHandler ensureAttachFlow
    rw [h]
    simp [hstep, hed, hp]
  · intro p msg hp ho
    unfold attachTextHandler ensureAttachFlow
    rw [h]
    simp [hstep, hed, hp, ho]

/-- C6 (witness): the input `not a url` at awaiting-link makes no edit
call and preserves the session; a parsing link with a failing transport
call preserves the attach flow and issues exactly one call. -/
theorem awaiting_link_errors_preserve_state_witness :
    attachTextHandler
        { step := BuilderStep.idle
          message := { text := "" }
          attachFlow := some
            { step := AttachStep.attach_awaiting_url
              buttons := [[⟨"A", BtnAction.url, "u"⟩]] } } "not a url"
        ⟨[], fun _ => "00000000-0000-4000-8000-000000000000", 0⟩ EditOutcome.ok 3
      = (showAttachSend
          { step := BuilderStep.idle
            message := { text := "" }
            attachFlow := some
              { step := AttachStep.attach_awaiting_url
                buttons := [[⟨"A", BtnAction.url, "u"⟩]] } } 3,
         ⟨[], fun _ => "00000000-0000-4000-8000-000000000000", 0⟩, [],
         Render.show invalidLinkText Keyboard.attachAwaitingUrlKb)
    ∧ attachTextHandler
        { step := BuilderStep.idle
          message := { text := "" }
          attachFlow := some
            { step := AttachStep.attach_awaiting_url
              buttons := [[⟨"A", BtnAction.url, "u"⟩]] } } "https://t.me/abcde/7"
        ⟨[], fun _ => "00000000-0000-4000-8000-000000000000", 0⟩
        (EditOutcome.err "x") 3
      = (showAttachSend
          { step := BuilderStep.idle
            message := { text := "" }
            attachFlow := some
              { step := AttachStep.attach_awaiting_url
                buttons := [[⟨"A", BtnAction.url, "u"⟩]] } } 3,
         (buildInlineKeyboardS
           ⟨[], fun _ => "00000000-0000-4000-8000-000000000000", 0⟩
           [[⟨"A", BtnAction.url, "u"⟩]]).1,
         [⟨ChatRef.handle "@abcde".data, 7⟩],
         Render.show (classifyAttachError "x") Keyboard.attachAwaitingUrlKb) := by
  constructor
  · exact (awaiting_link_errors_preserve_state _
      { step := AttachStep.attach_awaiting_url
        buttons := [[⟨"A", BtnAction.url, "u"⟩]] } "not a url"
      ⟨[], fun _ => "00000000-0000-4000-8000-000000000000", 0⟩
      EditOutcome.ok 3 rfl rfl rfl).1 (by decide)
  · exact (awaiting_link_errors_preserve_state _
      { step := AttachStep.attach_awaiting_url
        buttons := [[⟨"A", BtnAction.url, "u"⟩]] } "https://t.me/abcde/7"
      ⟨[], fun _ => "00000000-0000-4000-8000-000000000000", 0⟩
      (EditOutcome.err "x") 3 rfl rfl rfl).2
      ⟨ChatRef.handle "@abcde".data, 7⟩ "x" (by decide) rfl

-- ── C3: overflow indirection on oversized alert payloads ──

theorem redisGet_set_self (st : RedisStore) (k v : String) (ttl : Nat) :
    redisGet (redisSet st k v ttl) k = some v := by
  simp [redisGet, redisSet, List.find?]

theorem alrt_ne_alert (x y : String) : "alrt:" ++ x ≠ "alert:" ++ y := by
  intro h
  have h2 := congrArg String.data h
  rw [String.data_append, String.data_append] at h2
  have h3 : "alrt:".data = ['a', 'l', 'r', 't', ':'] := by decide
  have h4 : "alert:".data = ['a', 'l', 'e', 'r', 't', ':'] := by decide
  rw [h3, h4] at h2
  simp at h2

theorem jsSlice8_len (s : String) (h : 8 ≤ s.data.length) :
    (jsSlice8 s).data.length = 8 := by
  show (s.data.take 8).length = 8
  rw [List.length_take]
  exact Nat.min_eq_left h

/-- C3: in the overflow-indirection step of building the outbound
keyboard, a show-alert payload `alert:<value>` of UTF-8 byte length at
most 64 is used verbatim as the outbound callback identifier; an
oversized payload produces an 8-character random reference, stores the
mapping reference → original alert text in the key-value store with a
30-day TTL (2 592 000 s, so a later tap resolves it back to the original
text), and emits the fixed-prefix short identifier `alrt:<ref>`, which is
distinct from the raw payload. -/
theorem overflow_indirection (st : SenderState) (b : MessageButton)
    (hact : b.action = BtnAction.alert)
    (huuid : 8 ≤ (st.uuid st.uuidIdx).data.length) :
    (byteLen ("alert:" ++ b.value) ≤ 64 →
      processButton st b = (st, KbCell.cbBtn b.text ("alert:" ++ b.value)))
    ∧ (64 < byteLen ("alert:" ++ b.value) →
      processButton st b
          = ({ st with
                store := redisSet st.store
                  ("alert:" ++ jsSlice8 (st.uuid st.uuidIdx)) b.value 2592000
                uuidIdx := st.uuidIdx + 1 },
              KbCell.cbBtn b.text ("alrt:" ++ jsSlice8 (st.uuid st.uuidIdx)))
        ∧ (jsSlice8 (st.uuid st.uuidIdx)).data.length = 8
        ∧ redisGet (processButton st b).1.store
            ("alert:" ++ jsSlice8 (st.uuid st.uuidIdx)) = some b.value
        ∧ alrtHandler (processButton st b).1.store (jsSlice8 (st.uuid st.uuidIdx))
            = Render.alertWarn b.value
        ∧ "alrt:" ++ jsSlice8 (st.uuid st.uuidIdx) ≠ "alert:" ++ b.value)
    ∧ (buildInlineKeyboardS st [[b]]).2 = [[(processButton st b).2]] := by
  refine ⟨?_, ?_, ?_⟩
  · intro hle
    unfold processButton
    rw [hact]
    simp [MAX_CALLBACK_DATA, hle]
  · intro hgt
    have hnle : ¬ byteLen ("alert:" ++ b.value) ≤ MAX_CALLBACK_DATA := by
      simp only [MAX_CALLBACK_DATA]
      omega
    have heq : processButton st b
        = ({ st with
              store := redisSet st.store
                ("alert:" ++ jsSlice8 (st.uuid st.uuidIdx)) b.value 2592000
              uuidIdx := st.uuidIdx + 1 },
            KbCell.cbBtn b.text ("alrt:" ++ jsSlice8 (st.uuid st.uuidIdx))) := by
      unfold processButton
      rw [hact]
      simp [hnle, jsSlice8]
    refine ⟨heq, jsSlice8_len _ huuid, ?_, ?_, alrt_ne_alert _ _⟩
    · rw [heq]
      exact redisGet_set_self _ _ _ _
    · unfold alrtHandler
      rw [heq, redisGet_set_self]
      rfl
  · rfl

/-- C3 (witness): a short alert payload is used verbatim; an oversized
one is replaced by `alrt:<8-char ref>` whose stored text resolves back to
the original value. -/
theorem overflow_indirection_witness :
    processButton
        ⟨[], fun _ => "0123456789abcdef-0123456789abcdef-00", 0⟩
        ⟨"S", BtnAction.alert, "hi"⟩
      = (⟨[], fun _ => "0123456789abcdef-0123456789abcdef-00", 0⟩,
          KbCell.cbBtn "S" "alert:hi")
    ∧ alrtHandler
        (processButton
          ⟨[], fun _ => "0123456789abcdef-0123456789abcdef-00", 0⟩
          ⟨"L", BtnAction.alert,
            "aaaaaaaaaaaaaaaaaaaaaaaaaaaaaaaaaaaaaaaaaaaaaaaaaaaaaaaaaaaaaaaaaaaaaa"⟩).1.store
        (jsSlice8 "0123456789abcdef-0123456789abcdef-00")
      = Render.alertWarn
          "aaaaaaaaaaaaaaaaaaaaaaaaaaaaaaaaaaaaaaaaaaaaaaaaaaaaaaaaaaaaaaaaaaaaaa" := by
  constructor
  · exact (overflow_indirection
      ⟨[], fun _ => "0123456789abcdef-0123456789abcdef-00", 0⟩
      ⟨"S", BtnAction.alert, "hi"⟩ rfl (by decide)).1 (by decide)
  · exact ((overflow_indirection
      ⟨[], fun _ => "0123456789abcdef-0123456789abcdef-00", 0⟩
      ⟨"L", BtnAction.alert,
        "aaaaaaaaaaaaaaaaaaaaaaaaaaaaaaaaaaaaaaaaaaaaaaaaaaaaaaaaaaaaaaaaaaaaaa"⟩
      rfl (by decide)).2.1 (by decide)).2.2.2.1
